import Mathlib

/-!
Shallow embedding of the babytracker event engine (src/app.py).

Times are modelled as integer seconds on the local wall clock
(so that the local hour of an instant `t` is `(t / 3600) % 24`);
Python floats that hold feed amounts, growth measurements and hour
totals are modelled as exact rationals.  The SQLite `events` table is a
list of `Event` records; `order_by(start_time.desc()).first()` is
modelled by `latestWhere`, taking the maximum by `start_time` with ties
broken by larger `id` (the most recently inserted row).
-/

namespace BabyTracker

/-- Wall-clock instants, in seconds. -/
abbrev Time := Int

/-- Local hour of an instant (`datetime.hour`). -/
def hourOf (t : Time) : Int := (t / 3600) % 24

/-- `is_night` from app.py (lines 130-133): night iff local hour `< 7` or `>= 19`. -/
def is_night (t : Time) : Bool := hourOf t < 7 || 19 ≤ hourOf t

/-- The day/night label attached to a new sleep event
(app.py line 205: `"night" if is_night(now_dt) else "day"`). -/
def classify (t : Time) : String := if is_night t then "night" else "day"

/-- A row of the `events` table (app.py lines 57-71). -/
structure Event where
  id : Nat
  type : String
  subtype : Option String
  value : Option ℚ
  value_secondary : Option ℚ
  start_time : Time
  end_time : Option Time
  note : Option String
deriving Repr, DecidableEq

/-- The `events` table. -/
abbrev Store := List Event

/-- `a` sorts before `b` under `ORDER BY start_time DESC` (ties by most
recently inserted row, i.e. larger id). -/
def betterThan (a b : Event) : Bool :=
  b.start_time < a.start_time || (a.start_time == b.start_time && b.id < a.id)

/-- `query.filter(p).order_by(start_time.desc()).first()`. -/
def latestWhere (p : Event → Bool) : Store → Option Event
  | [] => none
  | e :: rest =>
    match latestWhere p rest with
    | none => if p e then some e else none
    | some b => if p e && betterThan e b then some e else some b

/-- An open sleep row (`filter_by(type="sleep", end_time=None)`). -/
def isOpenSleep (e : Event) : Bool := e.type == "sleep" && e.end_time.isNone

/-- All currently open sleep rows. -/
def openSleeps (s : Store) : List Event := s.filter isOpenSleep

/-- The result of `POST /api/sleep/toggle`. -/
structure ToggleResult where
  status : String
  event : Event
  store : Store
deriving Repr, DecidableEq

/-- `UPDATE events SET end_time = now WHERE id = i` (the single-row
mutation `open_sleep.end_time = now_dt` keyed by primary key). -/
def closeId (i : Nat) (now_dt : Time) (s : Store) : Store :=
  s.map fun e => if e.id == i then { e with end_time := some now_dt } else e

/-- `api_sleep_toggle` (app.py lines 188-209): if an open sleep row
exists, set its `end_time` to now; otherwise insert a fresh sleep row
with subtype `classify(now)`. -/
def api_sleep_toggle (s : Store) (now_dt : Time) (nextId : Nat) : ToggleResult :=
  match latestWhere isOpenSleep s with
  | some open_sleep =>
      { status := "stopped"
        event := { open_sleep with end_time := some now_dt }
        store := closeId open_sleep.id now_dt s }
  | none =>
      let new_sleep : Event :=
        { id := nextId, type := "sleep", subtype := some (classify now_dt)
          value := none, value_secondary := none
          start_time := now_dt, end_time := none, note := none }
      { status := "started", event := new_sleep, store := s ++ [new_sleep] }

/-- Raw JSON field values handed to `float(...)`: either a number or a
string that does not parse as one. -/
inductive Raw where
  | num (q : ℚ)
  | nonNum (s : String)
deriving Repr, DecidableEq

/-- How an operation fails: a `jsonify({"ok": False, ...}), 400` rejection,
or an exception that escapes the handler. -/
inductive ApiError where
  | validation (msg : String)
  | uncaught (msg : String)
deriving Repr, DecidableEq

/-- `float(v)`: a non-numeric argument raises `ValueError`, which no
handler in app.py catches. -/
def pyFloat : Raw → Except ApiError ℚ
  | .num q => .ok q
  | .nonNum _ => .error (.uncaught "ValueError")

/-- `float(v) if v is not None else None`. -/
def parseOptNum : Option Raw → Except ApiError (Option ℚ)
  | none => .ok none
  | some r => (pyFloat r).map some

/-- `data.get(k) or default`: Python truthiness also replaces an empty
string by the default. -/
def orDefault (v : Option String) (d : String) : String :=
  match v with
  | some s => if s == "" then d else s
  | none => d

/-- Is the result a `ValidationError`-style 400 rejection? -/
def isValidation {α : Type} : Except ApiError α → Bool
  | .error (.validation _) => true
  | _ => false

/-- Did the result escape the handler as an uncaught exception? -/
def isUncaught {α : Type} : Except ApiError α → Bool
  | .error (.uncaught _) => true
  | _ => false

/-- `api_feed` (app.py lines 212-229): parse `amount` and `duration`
with `float`, then insert a feed row.  On a parse failure the exception
propagates before any insert, leaving the store unchanged. -/
def api_feed (s : Store) (nextId : Nat) (now_dt : Time)
    (subtype : Option String) (amount duration : Option Raw) :
    Store × Except ApiError Event :=
  match parseOptNum amount with
  | .error err => (s, .error err)
  | .ok v =>
    match parseOptNum duration with
    | .error err => (s, .error err)
    | .ok vs =>
      let ev : Event :=
        { id := nextId, type := "feed", subtype := some (orDefault subtype "bottle")
          value := v, value_secondary := vs
          start_time := now_dt, end_time := none, note := none }
      (s ++ [ev], .ok ev)

/-- `api_diaper` (app.py lines 232-245). -/
def api_diaper (s : Store) (nextId : Nat) (now_dt : Time)
    (subtype : Option String) : Store × Except ApiError Event :=
  let ev : Event :=
    { id := nextId, type := "diaper", subtype := some (orDefault subtype "pee")
      value := none, value_secondary := none
      start_time := now_dt, end_time := none, note := none }
  (s ++ [ev], .ok ev)

/-- `api_growth` (app.py lines 248-267): rejects with a 400 when both
`weight` and `length` are absent, otherwise inserts a growth row.
The inputs arrive as JSON numbers, on which `float` is the identity. -/
def api_growth (s : Store) (nextId : Nat) (now_dt : Time)
    (weight length : Option ℚ) : Store × Except ApiError Event :=
  if weight.isNone && length.isNone then
    (s, .error (.validation "Gewicht of lengte is verplicht."))
  else
    let ev : Event :=
      { id := nextId, type := "growth", subtype := some "measurement"
        value := weight, value_secondary := length
        start_time := now_dt, end_time := none, note := none }
    (s ++ [ev], .ok ev)

/-- `api_note` (app.py lines 270-287): rejects with a 400 when the
trimmed text is empty. -/
def api_note (s : Store) (nextId : Nat) (now_dt : Time)
    (text : Option String) : Store × Except ApiError Event :=
  let t := (text.getD "").trim
  if t == "" then
    (s, .error (.validation "Notitie mag niet leeg zijn."))
  else
    let ev : Event :=
      { id := nextId, type := "note", subtype := some "diary"
        value := none, value_secondary := none
        start_time := now_dt, end_time := none, note := some t }
    (s ++ [ev], .ok ev)

/-- The `{type, subtype, when}` projection used by `api_status`. -/
def fmt_event : Option Event → Option (String × Option String × Time)
  | none => none
  | some e => some (e.type, e.subtype, e.start_time)

/-- The JSON body of `GET /api/status`. -/
structure StatusView where
  is_sleeping : Bool
  last_sleep_start : Option Time
  last_feed : Option (String × Option String × Time)
  last_diaper : Option (String × Option String × Time)
  last_growth : Option (String × Option String × Time)
deriving Repr, DecidableEq

/-- `api_status` (app.py lines 310-357): `is_sleeping` iff the most
recent sleep row is open; `last_sleep_start` is that row's `start_time`
whenever a sleep row exists at all. -/
def api_status (s : Store) : StatusView :=
  let last_sleep := latestWhere (fun e => e.type == "sleep") s
  { is_sleeping :=
      match last_sleep with
      | some e => e.end_time.isNone
      | none => false
    last_sleep_start := last_sleep.map Event.start_time
    last_feed := fmt_event (latestWhere (fun e => e.type == "feed") s)
    last_diaper := fmt_event (latestWhere (fun e => e.type == "diaper") s)
    last_growth := fmt_event (latestWhere (fun e => e.type == "growth") s) }

/-- The 24-hour lookback filter of `api_summary`
(`since = now_dt - timedelta(hours=24)`, `Event.start_time >= since`). -/
def inWindow (now_dt : Time) (e : Event) : Bool := now_dt - 24 * 3600 ≤ e.start_time

/-- The sleep rows `api_summary` iterates over. -/
def windowSleeps (s : Store) (now_dt : Time) : List Event :=
  s.filter fun e => e.type == "sleep" && inWindow now_dt e

/-- `duration = ((end_time or now) - start_time).total_seconds() / 3600`. -/
def sleepDuration (now_dt : Time) (e : Event) : ℚ :=
  ((e.end_time.getD now_dt - e.start_time : Int) : ℚ) / 3600

/-- The accumulation loop of app.py lines 374-386: each sleep row adds
its duration to the night bucket when `is_night(start_time)` holds and
to the day bucket otherwise. -/
def accumSleep (now_dt : Time) : List Event → ℚ × ℚ
  | [] => (0, 0)
  | e :: rest =>
      let acc := accumSleep now_dt rest
      if is_night e.start_time then (acc.1, acc.2 + sleepDuration now_dt e)
      else (acc.1 + sleepDuration now_dt e, acc.2)

/-- The `(day_hours, night_hours)` pair of `api_summary` before rounding. -/
def sleepDist (s : Store) (now_dt : Time) : ℚ × ℚ :=
  accumSleep now_dt (windowSleeps s now_dt)

/-- The feed-count loop of app.py lines 388-397: `(bottle, breast, solid)`
tallies; any other subtype is skipped. -/
def feedCounts (now_dt : Time) : List Event → Nat × Nat × Nat
  | [] => (0, 0, 0)
  | e :: rest =>
      let acc := feedCounts now_dt rest
      match e.subtype with
      | some "bottle" => (acc.1 + 1, acc.2.1, acc.2.2)
      | some "breast" => (acc.1, acc.2.1 + 1, acc.2.2)
      | some "solid" => (acc.1, acc.2.1, acc.2.2 + 1)
      | _ => acc

/-- `feed_dist = [bottle + breast, solid]`. -/
def feed_dist (s : Store) (now_dt : Time) : Nat × Nat :=
  let c := feedCounts now_dt (s.filter fun e => e.type == "feed" && inWindow now_dt e)
  (c.1 + c.2.1, c.2.2)

/-- The calendar-day key of an instant, standing in for the
`strftime` rendering of the event's date in the growth series. -/
def dateKey (t : Time) : Int := t / 86400

/-- Stable insertion keeping the list ascending by `start_time`
(ties keep insertion order, the most recently inserted row last). -/
def insertByStart (e : Event) : List Event → List Event
  | [] => [e]
  | x :: xs => if x.start_time ≤ e.start_time then x :: insertByStart e xs else e :: x :: xs

/-- `order_by(start_time.asc())` on a list of rows: stable insertion
sort, keeping insertion order among equal start times. -/
def sortByStartAsc (l : List Event) : List Event :=
  l.foldl (fun acc e => insertByStart e acc) []

/-- The growth series of app.py lines 399-415: all growth rows ascending
by `start_time`, rows with a null `value` skipped, projected to
`(date, weight)`. -/
def growth_series (s : Store) : List (Int × ℚ) :=
  (sortByStartAsc (s.filter fun e => e.type == "growth")).filterMap
    fun e => e.value.map fun q => (dateKey e.start_time, q)

/-- Python `round` to the nearest integer, halves to even. -/
def roundHalfEven (q : ℚ) : Int :=
  if q - ⌊q⌋ < 1 / 2 then ⌊q⌋
  else if (1 : ℚ) / 2 < q - ⌊q⌋ then ⌊q⌋ + 1
  else if ⌊q⌋ % 2 = 0 then ⌊q⌋ else ⌊q⌋ + 1

/-- `round(x, 1)`. -/
def round1 (q : ℚ) : ℚ := ((roundHalfEven (q * 10) : Int) : ℚ) / 10

/-- The JSON body of `GET /api/summary`. -/
structure SummaryView where
  sleep_dist : ℚ × ℚ
  feed_dist : Nat × Nat
  growth : List (Int × ℚ)
deriving Repr, DecidableEq

/-- `api_summary` (app.py lines 360-427). -/
def api_summary (s : Store) (now_dt : Time) : SummaryView :=
  { sleep_dist := (round1 (sleepDist s now_dt).1, round1 (sleepDist s now_dt).2)
    feed_dist := feed_dist s now_dt
    growth := growth_series s }

/-- One authenticated write request against the store. -/
inductive Op where
  | toggleSleep
  | feed (subtype : Option String) (amount duration : Option Raw)
  | diaper (subtype : Option String)
  | growth (weight length : Option ℚ)
  | note (text : Option String)
deriving Repr, DecidableEq

/-- The store together with the next free primary key. -/
structure Sys where
  store : Store
  nextId : Nat
deriving Repr, DecidableEq

/-- Serve one request at instant `now_dt`.  A failed request leaves the
store unchanged; the next primary key only grows. -/
def applyOp (st : Sys) (now_dt : Time) : Op → Sys
  | .toggleSleep =>
      { store := (api_sleep_toggle st.store now_dt st.nextId).store
        nextId := st.nextId + 1 }
  | .feed sub a d =>
      { store := (api_feed st.store st.nextId now_dt sub a d).1, nextId := st.nextId + 1 }
  | .diaper sub =>
      { store := (api_diaper st.store st.nextId now_dt sub).1, nextId := st.nextId + 1 }
  | .growth w l =>
      { store := (api_growth st.store st.nextId now_dt w l).1, nextId := st.nextId + 1 }
  | .note t =>
      { store := (api_note st.store st.nextId now_dt t).1, nextId := st.nextId + 1 }

/-- Serve a sequence of timestamped requests. -/
def run (st : Sys) : List (Time × Op) → Sys
  | [] => st
  | (t, op) :: rest => run (applyOp st t op) rest

/-- Serve a sequence of `toggleSleep` requests at the given instants. -/
def runToggles (st : Sys) (ts : List Time) : Sys :=
  run st (ts.map fun t => (t, Op.toggleSleep))

/-! ### Basic lemmas about the queries -/

theorem latestWhere_eq_none_iff (p : Event → Bool) (s : Store) :
    latestWhere p s = none ↔ ∀ a ∈ s, p a = false := by
  induction s with
  | nil => simp [latestWhere]
  | cons e rest ih =>
    simp only [latestWhere]
    cases hrest : latestWhere p rest with
    | none =>
      have hr := ih.mp hrest
      by_cases hp : p e = true
      · simp [hp]
      · have hp' : p e = false := Bool.eq_false_iff.mpr hp
        simp [hp']
        exact hr
    | some b =>
      constructor
      · intro h
        exfalso
        by_cases hp : (p e && betterThan e b) = true <;> simp [hp] at h
      · intro h
        exfalso
        have : latestWhere p rest = none := ih.mpr fun a ha => h a (List.mem_cons_of_mem _ ha)
        rw [this] at hrest
        exact Option.noConfusion hrest

theorem latestWhere_mem_filter {p : Event → Bool} {s : Store} {e : Event}
    (h : latestWhere p s = some e) : e ∈ s.filter p := by
  induction s with
  | nil => simp [latestWhere] at h
  | cons x rest ih =>
    simp only [latestWhere] at h
    cases hrest : latestWhere p rest with
    | none =>
      rw [hrest] at h
      by_cases hp : p x = true
      · simp [hp] at h
        simp [List.filter_cons, hp, ← h]
      · simp [hp] at h
    | some b =>
      rw [hrest] at h
      by_cases hcond : (p x && betterThan x b) = true
      · simp [hcond] at h
        have hp : p x = true := by
          simp only [Bool.and_eq_true] at hcond
          exact hcond.1
        simp [List.filter_cons, hp, ← h]
      · simp [hcond] at h
        rw [h] at hrest
        have hmem := ih hrest
        rw [List.filter_cons]
        by_cases hp : p x = true
        · rw [if_pos hp]
          exact List.mem_cons_of_mem _ hmem
        · rw [if_neg hp]
          exact hmem

theorem latestWhere_mem {p : Event → Bool} {s : Store} {e : Event}
    (h : latestWhere p s = some e) : e ∈ s ∧ p e = true := by
  have := latestWhere_mem_filter h
  exact ⟨(List.mem_filter.mp this).1, (List.mem_filter.mp this).2⟩

/-- When `e` satisfies the filter and carries a strictly larger
`start_time` than every other row satisfying the filter, the
descending-order query returns `e`. -/
theorem latestWhere_strict_max {p : Event → Bool} {s : Store} {e : Event}
    (hmem : e ∈ s) (hp : p e = true)
    (hmax : ∀ e' ∈ s, e' ≠ e → p e' = true → e'.start_time < e.start_time) :
    latestWhere p s = some e := by
  induction s with
  | nil => simp at hmem
  | cons x rest ih =>
    by_cases hxe : x = e
    · subst hxe
      simp only [latestWhere]
      cases hrest : latestWhere p rest with
      | none => simp [hp]
      | some b =>
        have hb := latestWhere_mem hrest
        rcases ne_or_eq b x with hne | heq
        · have hlt : b.start_time < x.start_time :=
            hmax b (List.mem_cons_of_mem _ hb.1) hne hb.2
          have : betterThan x b = true := by
            simp [betterThan, hlt]
          simp [hp, this]
        · subst heq
          have : betterThan b b = false := by
            simp [betterThan]
          simp [hp, this]
    · have hmem' : e ∈ rest := by
        rcases List.mem_cons.mp hmem with h | h
        · exact absurd h.symm hxe
        · exact h
      have hmax' : ∀ e' ∈ rest, e' ≠ e → p e' = true → e'.start_time < e.start_time := by
        intro e' h1 h2 h3
        exact hmax e' (List.mem_cons_of_mem _ h1) h2 h3
      have hrest := ih hmem' hmax'
      simp only [latestWhere, hrest]
      by_cases hpx : p x = true
      · have hxlt : x.start_time < e.start_time := hmax x (List.mem_cons_self _ _) hxe hpx
        have : betterThan x e = false := by
          simp only [betterThan, Bool.or_eq_false_iff]
          constructor
          · simp [not_lt.mpr (le_of_lt hxlt)]
          · simp [Bool.and_eq_false_iff]
            intro h
            exact absurd (by exact_mod_cast h) (ne_of_lt hxlt)
        simp [this]
      · simp [hpx]

theorem openSleeps_append (s t : Store) :
    openSleeps (s ++ t) = openSleeps s ++ openSleeps t := by
  simp [openSleeps, List.filter_append]

theorem openSleeps_closeId (i : Nat) (now_dt : Time) (s : Store) :
    openSleeps (closeId i now_dt s) = (openSleeps s).filter fun e => !(e.id == i) := by
  induction s with
  | nil => rfl
  | cons e rest ih =>
    show openSleeps (closeId i now_dt [e] ++ closeId i now_dt rest)
        = (openSleeps ([e] ++ rest)).filter fun e => !(e.id == i)
    rw [openSleeps_append, openSleeps_append, List.filter_append, ih]
    congr 1
    by_cases h : (e.id == i) = true
    · have hcl : isOpenSleep { e with end_time := some now_dt } = false := by
        simp [isOpenSleep]
      show openSleeps [if (e.id == i) = true then _ else e] = _
      rw [if_pos h]
      by_cases hop : isOpenSleep e = true
      · simp [openSleeps, hcl, hop, h]
      · simp [openSleeps, hcl, Bool.eq_false_iff.mpr hop]
    · show openSleeps [if (e.id == i) = true then _ else e] = _
      rw [if_neg h]
      by_cases hop : isOpenSleep e = true
      · simp [openSleeps, hop, Bool.eq_false_iff.mpr h]
      · simp [openSleeps, Bool.eq_false_iff.mpr hop]

theorem closeId_preserves_start (i : Nat) (now_dt : Time) (s : Store) :
    ∀ e' ∈ closeId i now_dt s, ∃ e ∈ s, e'.start_time = e.start_time := by
  intro e' h
  rcases List.mem_map.mp h with ⟨a, ha, hfa⟩
  refine ⟨a, ha, ?_⟩
  by_cases hid : a.id = i <;> simp [hid] at hfa <;> simp [← hfa]

theorem mem_closeId_of_id_ne {e : Event} {s : Store} (i : Nat) (now_dt : Time)
    (he : e ∈ s) (hne : ¬ e.id = i) :
    e ∈ closeId i now_dt s := by
  have heq : (fun x => if x.id == i then { x with end_time := some now_dt } else x) e = e := by
    simp [hne]
  have := List.mem_map_of_mem
    (fun x => if x.id == i then { x with end_time := some now_dt } else x) he
  rw [heq] at this
  exact this

theorem nodup_ids_filter (p : Event → Bool) {s : Store}
    (h : (s.map Event.id).Nodup) : ((s.filter p).map Event.id).Nodup :=
  h.sublist ((List.filter_sublist s).map Event.id)

theorem filter_ne_id_length {l : List Event} {e : Event}
    (hids : (l.map Event.id).Nodup) (he : e ∈ l) :
    (l.filter fun x => !(x.id == e.id)).length = l.length - 1 := by
  induction l with
  | nil => simp at he
  | cons x rest ih =>
    have hids' : (rest.map Event.id).Nodup := by
      rw [List.map_cons] at hids
      exact hids.of_cons
    have hhead : x.id ∉ rest.map Event.id := by
      rw [List.map_cons] at hids
      exact (List.nodup_cons.mp hids).1
    rcases List.mem_cons.mp he with rfl | hr
    · have hall : ∀ a ∈ rest, (!(a.id == e.id)) = true := by
        intro a ha
        have : a.id ≠ e.id := by
          intro hc
          exact hhead (hc ▸ List.mem_map_of_mem Event.id ha)
        simp [this]
      rw [List.filter_cons]
      simp only [beq_self_eq_true, Bool.not_true, if_neg (by simp : ¬ (false = true))]
      rw [List.filter_eq_self.mpr hall]
      simp
    · have hxe : x.id ≠ e.id := by
        intro hc
        exact hhead (hc ▸ List.mem_map_of_mem Event.id hr)
      have hlen : 1 ≤ rest.length := List.length_pos.mpr (List.ne_nil_of_mem hr)
      rw [List.filter_cons]
      simp only [if_pos (by simp [hxe] : (!(x.id == e.id)) = true)]
      simp only [List.length_cons]
      rw [ih hids' hr]
      omega

theorem mem_insertByStart_self (e : Event) (l : List Event) :
    e ∈ insertByStart e l := by
  induction l with
  | nil => simp [insertByStart]
  | cons x xs ih =>
    rw [insertByStart]
    by_cases h : x.start_time ≤ e.start_time
    · rw [if_pos h]
      exact List.mem_cons_of_mem _ ih
    · rw [if_neg h]
      exact List.mem_cons_self _ _

theorem filterMap_insertByStart_none {f : Event → Option (Int × ℚ)} {e : Event}
    (hf : f e = none) (l : List Event) :
    (insertByStart e l).filterMap f = l.filterMap f := by
  induction l with
  | nil => simp [insertByStart, hf]
  | cons x xs ih =>
    rw [insertByStart]
    by_cases h : x.start_time ≤ e.start_time
    · rw [if_pos h, List.filterMap_cons, List.filterMap_cons]
      cases f x <;> simp [ih]
    · rw [if_neg h, List.filterMap_cons, hf]

theorem sortByStartAsc_append_single (l : List Event) (e : Event) :
    sortByStartAsc (l ++ [e]) = insertByStart e (sortByStartAsc l) := by
  simp [sortByStartAsc, List.foldl_append]

theorem isOpenSleep_iff (e : Event) :
    isOpenSleep e = true ↔ e.type = "sleep" ∧ e.end_time = none := by
  simp [isOpenSleep, Option.isNone_iff_eq_none]

/-- The sleep row inserted by the `started` branch of the toggle. -/
def newSleep (t : Time) (nextId : Nat) : Event :=
  { id := nextId, type := "sleep", subtype := some (classify t)
    value := none, value_secondary := none
    start_time := t, end_time := none, note := none }

theorem toggle_start (st : Sys) (t : Time)
    (h : openSleeps st.store = []) :
    (applyOp st t Op.toggleSleep).store = st.store ++ [newSleep t st.nextId] := by
  have hforall : ∀ a ∈ st.store, isOpenSleep a = false := by
    intro a ha
    have := List.filter_eq_nil_iff.mp h a ha
    exact Bool.eq_false_iff.mpr this
  have hnone : latestWhere isOpenSleep st.store = none :=
    (latestWhere_eq_none_iff _ _).mpr hforall
  simp [applyOp, api_sleep_toggle, hnone, newSleep]

theorem toggle_stop (st : Sys) (t : Time) (e0 : Event)
    (h : openSleeps st.store = [e0]) :
    (applyOp st t Op.toggleSleep).store = closeId e0.id t st.store ∧
    openSleeps (applyOp st t Op.toggleSleep).store = [] := by
  have hsome : latestWhere isOpenSleep st.store = some e0 := by
    cases hl : latestWhere isOpenSleep st.store with
    | none =>
      exfalso
      have hforall := (latestWhere_eq_none_iff _ _).mp hl
      have : openSleeps st.store = [] := by
        apply List.filter_eq_nil_iff.mpr
        intro a ha
        exact Bool.eq_false_iff.mp (hforall a ha)
      rw [this] at h
      exact List.noConfusion h
    | some b =>
      have hb := latestWhere_mem_filter hl
      have : b ∈ openSleeps st.store := hb
      rw [h] at this
      simp at this
      rw [this]
  have hstore : (applyOp st t Op.toggleSleep).store = closeId e0.id t st.store := by
    simp [applyOp, api_sleep_toggle, hsome]
  refine ⟨hstore, ?_⟩
  rw [hstore, openSleeps_closeId, h]
  simp

theorem openSleeps_applyOp_le (st : Sys) (t : Time) (op : Op)
    (h : (openSleeps st.store).length ≤ 1) :
    (openSleeps (applyOp st t op).store).length ≤ 1 := by
  cases op with
  | toggleSleep =>
    cases hl : latestWhere isOpenSleep st.store with
    | none =>
      have hnil : openSleeps st.store = [] := by
        apply List.filter_eq_nil_iff.mpr
        intro a ha
        exact Bool.eq_false_iff.mp ((latestWhere_eq_none_iff _ _).mp hl a ha)
      rw [toggle_start st t hnil, openSleeps_append, hnil]
      simp [openSleeps, isOpenSleep, newSleep]
    | some b =>
      have hstore : (applyOp st t Op.toggleSleep).store = closeId b.id t st.store := by
        simp [applyOp, api_sleep_toggle, hl]
      rw [hstore, openSleeps_closeId]
      exact le_trans (List.length_filter_le _ _) h
  | feed sub a d =>
    show (openSleeps (api_feed st.store st.nextId t sub a d).1).length ≤ 1
    rw [api_feed]
    cases parseOptNum a with
    | error err => simpa using h
    | ok v =>
      cases parseOptNum d with
      | error err => simpa using h
      | ok vs =>
        rw [openSleeps_append]
        simpa [openSleeps, isOpenSleep] using h
  | diaper sub =>
    show (openSleeps (api_diaper st.store st.nextId t sub).1).length ≤ 1
    rw [api_diaper, openSleeps_append]
    simpa [openSleeps, isOpenSleep] using h
  | growth w l =>
    show (openSleeps (api_growth st.store st.nextId t w l).1).length ≤ 1
    rw [api_growth]
    by_cases hc : (w.isNone && l.isNone) = true
    · simpa [hc] using h
    · rw [if_neg hc, openSleeps_append]
      simpa [openSleeps, isOpenSleep] using h
  | note txt =>
    show (openSleeps (api_note st.store st.nextId t txt).1).length ≤ 1
    rw [api_note]
    by_cases hc : ((txt.getD "").trim == "") = true
    · simpa [hc] using h
    · rw [if_neg hc, openSleeps_append]
      simpa [openSleeps, isOpenSleep] using h

theorem run_atMostOne (ops : List (Time × Op)) (st : Sys)
    (h : (openSleeps st.store).length ≤ 1) :
    (openSleeps (run st ops).store).length ≤ 1 := by
  induction ops generalizing st with
  | nil => exact h
  | cons p rest ih =>
    exact ih _ (openSleeps_applyOp_le st p.1 p.2 h)

/-- Every instant in `ts` lies strictly after every `start_time` in `s`. -/
def startsBelow (s : Store) (ts : List Time) : Prop :=
  ∀ e ∈ s, ∀ t ∈ ts, e.start_time < t

theorem toggles_parity : ∀ ts : List Time, ∀ st : Sys,
    openSleeps st.store = [] →
    List.Sorted (· < ·) ts →
    startsBelow st.store ts →
    (Odd ts.length →
      ∃ e, openSleeps (runToggles st ts).store = [e] ∧
        e.type = "sleep" ∧ e.end_time = none ∧
        (∀ e' ∈ (runToggles st ts).store, e' ≠ e → e'.start_time < e.start_time)) ∧
    (Even ts.length → openSleeps (runToggles st ts).store = [])
  | [], st, h0, _, _ => by
    constructor
    · intro hodd
      exact absurd hodd (by simp [Nat.odd_iff])
    · intro _
      exact h0
  | [t], st, h0, _, hbelow => by
    have hstore := toggle_start st t h0
    have hrun : (runToggles st [t]).store = st.store ++ [newSleep t st.nextId] := hstore
    constructor
    · intro _
      refine ⟨newSleep t st.nextId, ?_, rfl, rfl, ?_⟩
      · rw [hrun, openSleeps_append, h0]
        simp [openSleeps, isOpenSleep, newSleep]
      · intro e' he' hne
        rw [hrun] at he'
        rcases List.mem_append.mp he' with hmem | hmem
        · exact hbelow e' hmem t (List.mem_singleton_self t)
        · simp at hmem
          exact absurd hmem hne
    · intro heven
      exact absurd heven (by simp)
  | t1 :: t2 :: rest, st, h0, hsorted, hbelow => by
    have hs1 := List.sorted_cons.mp hsorted
    have hs2 := List.sorted_cons.mp hs1.2
    -- first toggle: opens a fresh sleep interval at t1
    have hstore1 := toggle_start st t1 h0
    have hopen1 : openSleeps (applyOp st t1 Op.toggleSleep).store = [newSleep t1 st.nextId] := by
      rw [hstore1, openSleeps_append, h0]
      simp [openSleeps, isOpenSleep, newSleep]
    -- second toggle: closes it again
    have hstop := toggle_stop (applyOp st t1 Op.toggleSleep) t2 _ hopen1
    set st2 := applyOp (applyOp st t1 Op.toggleSleep) t2 Op.toggleSleep with hst2
    have hopen2 : openSleeps st2.store = [] := hstop.2
    have hbelow2 : startsBelow st2.store rest := by
      intro e' he' t ht
      have hmem1 : e' ∈ closeId (newSleep t1 st.nextId).id t2 (applyOp st t1 Op.toggleSleep).store := by
        rw [← hstop.1]
        exact he'
      rcases closeId_preserves_start _ _ _ e' hmem1 with ⟨e, he, hstart⟩
      rw [hstore1] at he
      rcases List.mem_append.mp he with hmem | hmem
      · rw [hstart]
        exact hbelow e hmem t (List.mem_cons_of_mem _ (List.mem_cons_of_mem _ ht))
      · simp at hmem
        rw [hstart, hmem]
        show t1 < t
        exact hs1.1 t (List.mem_cons_of_mem _ ht)
    have hrest := toggles_parity rest st2 hopen2 hs2.2 hbelow2
    have hrun : runToggles st (t1 :: t2 :: rest) = runToggles st2 rest := rfl
    constructor
    · intro hodd
      have : Odd rest.length := by
        rw [Nat.odd_iff] at hodd ⊢
        simp only [List.length_cons] at hodd
        omega
      rw [hrun]
      exact hrest.1 this
    · intro heven
      have : Even rest.length := by
        rw [Nat.even_iff] at heven ⊢
        simp only [List.length_cons] at heven
        omega
      rw [hrun]
      exact hrest.2 this

/-! ### Claim C7 -/

/-- C7: for every timestamp `t`, `classify t` is night iff the local
hour of `t` is `< 7` or `≥ 19` and day otherwise; at 06:59 and 19:00
it is night, at 07:00 and 18:59 it is day. -/
theorem c7_classify_policy :
    (∀ t : Time, (classify t = "night" ↔ (hourOf t < 7 ∨ 19 ≤ hourOf t))
      ∧ (classify t = "day" ↔ ¬(hourOf t < 7 ∨ 19 ≤ hourOf t)))
    ∧ classify (6 * 3600 + 59 * 60) = "night"
    ∧ classify (7 * 3600) = "day"
    ∧ classify (18 * 3600 + 59 * 60) = "day"
    ∧ classify (19 * 3600) = "night" := by
  refine ⟨fun t => ?_, by decide, by decide, by decide, by decide⟩
  by_cases hn : is_night t = true
  · have hcond : hourOf t < 7 ∨ 19 ≤ hourOf t := by
      simpa [is_night] using hn
    constructor
    · simp [classify, hn, hcond]
    · simp [classify, hn, hcond]
  · have hcond : ¬(hourOf t < 7 ∨ 19 ≤ hourOf t) := by
      simpa [is_night] using hn
    constructor
    · simp [classify, hn, hcond]
    · simp [classify, hn, hcond]

/-! ### Claim C1 -/

/-- A closed one-hour sleep event whose stored subtype is `day` but whose
`start_time` lies at a night hour (20:00). -/
def c1_event : Event :=
  { id := 1, type := "sleep", subtype := some "day", value := none, value_secondary := none
    start_time := 20 * 3600, end_time := some (21 * 3600), note := none }

/-- C1 counterexample: at `now` = 22:00, the stored-`day`-subtype event is
in the window, yet its one hour is credited to `night_hours` (re-classified
from its `start_time`), not to the stored subtype's `day_hours` bucket. -/
theorem c1_counterexample :
    c1_event.subtype = some "day" ∧
    inWindow (22 * 3600) c1_event = true ∧
    sleepDist [c1_event] (22 * 3600) = (0, 1) := by
  refine ⟨rfl, by decide, ?_⟩
  norm_num [sleepDist, windowSleeps, accumSleep, sleepDuration, inWindow, is_night,
    hourOf, c1_event]

/-- The split the spec describes, keyed by each event's stored subtype:
a stored subtype of `night` goes to the night bucket, anything else to
the day bucket. -/
def accumSleepBySubtype (now_dt : Time) : List Event → ℚ × ℚ
  | [] => (0, 0)
  | e :: rest =>
      let acc := accumSleepBySubtype now_dt rest
      if e.subtype == some "night" then (acc.1, acc.2 + sleepDuration now_dt e)
      else (acc.1 + sleepDuration now_dt e, acc.2)

/-- The stored-subtype split over the window. -/
def sleepDistBySubtype (s : Store) (now_dt : Time) : ℚ × ℚ :=
  accumSleepBySubtype now_dt (windowSleeps s now_dt)

theorem accumSleep_eq_bySubtype (now_dt : Time) (l : List Event)
    (h : ∀ e ∈ l, e.subtype = some (classify e.start_time)) :
    accumSleep now_dt l = accumSleepBySubtype now_dt l := by
  induction l with
  | nil => rfl
  | cons e rest ih =>
    have he := h e (List.mem_cons_self _ _)
    have hrest := ih fun a ha => h a (List.mem_cons_of_mem _ ha)
    simp only [accumSleep, accumSleepBySubtype, hrest]
    by_cases hn : is_night e.start_time = true
    · rw [he]
      simp [classify, hn]
    · rw [he]
      have : classify e.start_time = "day" := by
        simp [classify, hn]
      simp [this, hn]

/-- C1 (amended): app.py credits each windowed sleep event's duration by
re-classifying its `start_time` with `is_night` at aggregation time; the
stored-subtype split of the claim coincides with the computed
distribution exactly when every windowed sleep event's stored subtype
equals `classify(start_time)` — an event whose stored subtype differs
has its hours credited to the `classify(start_time)` bucket instead. -/
theorem c1_amended_reclassified_split (s : Store) (now_dt : Time)
    (h : ∀ e ∈ windowSleeps s now_dt, e.subtype = some (classify e.start_time)) :
    sleepDist s now_dt = sleepDistBySubtype s now_dt :=
  accumSleep_eq_bySubtype now_dt (windowSleeps s now_dt) h

/-- An agreeing event: stored subtype `night`, started at a night hour. -/
def c1w_event : Event :=
  { id := 1, type := "sleep", subtype := some "night", value := none, value_secondary := none
    start_time := 20 * 3600, end_time := some (21 * 3600), note := none }

theorem c1_amended_witness :
    sleepDist [c1w_event] (22 * 3600) = sleepDistBySubtype [c1w_event] (22 * 3600) :=
  c1_amended_reclassified_split [c1w_event] (22 * 3600) (by decide)

/-! ### Claim C8 -/

/-- An open sleep event with stored subtype `night` that started two hours
before `now` at a daytime hour (10:00). -/
def c8_event : Event :=
  { id := 1, type := "sleep", subtype := some "night", value := none, value_secondary := none
    start_time := 10 * 3600, end_time := none, note := none }

/-- C8 counterexample: the open `night`-subtype sleep started 2 hours
before `now` = 12:00 contributes its elapsed 2.0 hours to `day_hours`
(because `is_night(10:00)` is false), not to `night_hours` as the
claim's example states. -/
theorem c8_counterexample :
    c8_event.subtype = some "night" ∧ c8_event.end_time = none ∧
    (12 * 3600 : Int) - c8_event.start_time = 2 * 3600 ∧
    sleepDist [c8_event] (12 * 3600) = (2, 0) := by
  refine ⟨rfl, rfl, by decide, ?_⟩
  norm_num [sleepDist, windowSleeps, accumSleep, sleepDuration, inWindow, is_night,
    hourOf, c8_event]

theorem accumSleep_append (now_dt : Time) (l1 l2 : List Event) :
    accumSleep now_dt (l1 ++ l2)
      = ((accumSleep now_dt l1).1 + (accumSleep now_dt l2).1,
         (accumSleep now_dt l1).2 + (accumSleep now_dt l2).2) := by
  induction l1 with
  | nil => simp [accumSleep]
  | cons x xs ih =>
    rw [List.cons_append]
    simp only [accumSleep, List.append_eq, ih]
    by_cases hn : is_night x.start_time = true
    · rw [if_pos hn, if_pos hn, Prod.mk.injEq]
      constructor <;> ring
    · rw [if_neg hn, if_neg hn, Prod.mk.injEq]
      constructor <;> ring

theorem windowSleeps_append_single (s : Store) (now_dt : Time) (e : Event) :
    windowSleeps (s ++ [e]) now_dt
      = windowSleeps s now_dt
        ++ (if e.type == "sleep" && inWindow now_dt e then [e] else []) := by
  rw [windowSleeps, windowSleeps, List.filter_append]
  congr 1
  by_cases hp : (e.type == "sleep" && inWindow now_dt e) = true
  · simp [hp]
  · simp [Bool.eq_false_iff.mpr hp]

/-- C8 (amended): each sleep event in the window contributes exactly
`(end_time or now) - start_time` hours — `now - start_time` while it is
still open, `end_time - start_time` once closed — and those hours land
in the bucket selected by `is_night(start_time)` (not by its stored
subtype): appending such an event to any store adds precisely that
contribution to the corresponding bucket, while an event of another
type or outside the window changes nothing. -/
theorem c8_amended_open_duration (s : Store) (now_dt : Time) (e : Event) :
    (e.type = "sleep" → inWindow now_dt e = true → e.end_time = none →
      sleepDist (s ++ [e]) now_dt
        = (if is_night e.start_time
           then ((sleepDist s now_dt).1,
                 (sleepDist s now_dt).2 + ((now_dt - e.start_time : Int) : ℚ) / 3600)
           else ((sleepDist s now_dt).1 + ((now_dt - e.start_time : Int) : ℚ) / 3600,
                 (sleepDist s now_dt).2)))
    ∧ (∀ t, e.type = "sleep" → inWindow now_dt e = true → e.end_time = some t →
      sleepDist (s ++ [e]) now_dt
        = (if is_night e.start_time
           then ((sleepDist s now_dt).1,
                 (sleepDist s now_dt).2 + ((t - e.start_time : Int) : ℚ) / 3600)
           else ((sleepDist s now_dt).1 + ((t - e.start_time : Int) : ℚ) / 3600,
                 (sleepDist s now_dt).2)))
    ∧ ((e.type ≠ "sleep" ∨ inWindow now_dt e = false) →
      sleepDist (s ++ [e]) now_dt = sleepDist s now_dt) := by
  refine ⟨?_, ?_, ?_⟩
  · intro htype hwin hend
    have hp : (e.type == "sleep" && inWindow now_dt e) = true := by
      simp [htype, hwin]
    rw [sleepDist, windowSleeps_append_single, hp, if_pos rfl, accumSleep_append]
    by_cases hn : is_night e.start_time = true
    · simp [accumSleep, sleepDuration, hend, hn, sleepDist]
    · simp [accumSleep, sleepDuration, hend, hn, sleepDist]
  · intro t htype hwin hend
    have hp : (e.type == "sleep" && inWindow now_dt e) = true := by
      simp [htype, hwin]
    rw [sleepDist, windowSleeps_append_single, hp, if_pos rfl, accumSleep_append]
    by_cases hn : is_night e.start_time = true
    · simp [accumSleep, sleepDuration, hend, hn, sleepDist]
    · simp [accumSleep, sleepDuration, hend, hn, sleepDist]
  · intro hout
    have hp : (e.type == "sleep" && inWindow now_dt e) = false := by
      rcases hout with h | h
      · simp [h]
      · simp [h]
    rw [sleepDist, windowSleeps_append_single, hp]
    simp [sleepDist]

/-- An open sleep event started two hours before `now` at a night hour. -/
def c8w_event : Event :=
  { id := 1, type := "sleep", subtype := some "night", value := none, value_secondary := none
    start_time := 2 * 3600, end_time := none, note := none }

theorem c8_amended_witness :
    sleepDist [c8w_event] (4 * 3600) = (0, 2) := by
  have h := (c8_amended_open_duration [] (4 * 3600) c8w_event).1 rfl (by decide) rfl
  rw [List.nil_append] at h
  rw [h]
  norm_num [sleepDist, windowSleeps, accumSleep, is_night, hourOf, c8w_event]

/-! ### Claim C2 -/

/-- An open sleep interval. -/
def c2_sleep : Event :=
  { id := 1, type := "sleep", subtype := some "night", value := none, value_secondary := none
    start_time := 100000, end_time := none, note := none }

/-- An open night-wake interval inside it. -/
def c2_nw : Event :=
  { id := 2, type := "night_wake", subtype := some "night_wake", value := none
    value_secondary := none, start_time := 100500, end_time := none, note := none }

/-- C2 counterexample: one `toggleSleep()` call on a store holding an open
sleep and an open night-wake closes the sleep but leaves the night-wake
with a null `end_time` — the claim's "both events have non-null
end_time" fails. -/
theorem c2_counterexample :
    (api_sleep_toggle [c2_sleep, c2_nw] 103600 3).status = "stopped" ∧
    ((api_sleep_toggle [c2_sleep, c2_nw] 103600 3).store.filter
      (fun e => e.type == "sleep" && e.end_time.isNone)).length = 0 ∧
    ((api_sleep_toggle [c2_sleep, c2_nw] 103600 3).store.filter
      (fun e => e.type == "night_wake" && e.end_time.isNone)).length = 1 := by
  decide

/-- C2 (amended): on a store whose most recent sleep event is open,
one `toggleSleep()` call closes only that sleep event; any open
`night_wake` event is untouched and still has a null `end_time`
afterwards. -/
theorem c2_amended_nightwake_stays_open (s : Store) (now_dt : Time) (nextId : Nat)
    (op e : Event)
    (hids : (s.map Event.id).Nodup)
    (hop : latestWhere isOpenSleep s = some op)
    (he : e ∈ s) (htype : e.type = "night_wake") (hopen : e.end_time = none) :
    (api_sleep_toggle s now_dt nextId).status = "stopped" ∧
    e ∈ (api_sleep_toggle s now_dt nextId).store ∧ e.end_time = none := by
  have hmem := latestWhere_mem hop
  have hoptype : op.type = "sleep" := ((isOpenSleep_iff op).mp hmem.2).1
  have hne : e ≠ op := by
    intro hc
    rw [hc, hoptype] at htype
    exact absurd htype (by decide)
  have hidne : ¬ e.id = op.id := by
    intro hc
    exact hne (List.inj_on_of_nodup_map hids he hmem.1 hc)
  have hstatus : (api_sleep_toggle s now_dt nextId).status = "stopped" := by
    simp [api_sleep_toggle, hop]
  have hstore : (api_sleep_toggle s now_dt nextId).store = closeId op.id now_dt s := by
    simp [api_sleep_toggle, hop]
  refine ⟨hstatus, ?_, hopen⟩
  rw [hstore]
  exact mem_closeId_of_id_ne op.id now_dt he hidne

/-- C2 witness store: the toggle leaves the night-wake row in place. -/
theorem c2_amended_witness :
    (api_sleep_toggle [c2_sleep, c2_nw] 103600 3).status = "stopped" ∧
    c2_nw ∈ (api_sleep_toggle [c2_sleep, c2_nw] 103600 3).store ∧
    c2_nw.end_time = none :=
  c2_amended_nightwake_stays_open [c2_sleep, c2_nw] 103600 3 c2_sleep c2_nw
    (by decide) (by decide) (by decide) rfl rfl

/-! ### Claim C4 -/

def c4_s1 : Event :=
  { id := 1, type := "sleep", subtype := some "day", value := none, value_secondary := none
    start_time := 100, end_time := none, note := none }

def c4_s2 : Event := { c4_s1 with id := 2, start_time := 200 }

def c4_s3 : Event := { c4_s1 with id := 3, start_time := 300 }

/-- C4 counterexample: with three open sleep events, one `toggleSleep()`
closes only the most recent one and leaves two still open — it does not
self-heal down to at most one open interval. -/
theorem c4_counterexample :
    ¬ ((openSleeps (api_sleep_toggle [c4_s1, c4_s2, c4_s3] 1000 4).store).length ≤ 1) ∧
    (openSleeps (api_sleep_toggle [c4_s1, c4_s2, c4_s3] 1000 4).store).length = 2 ∧
    (api_sleep_toggle [c4_s1, c4_s2, c4_s3] 1000 4).event.id = 3 := by
  decide

/-- C4 (amended): on a store with at least one open sleep event,
`toggleSleep()` does not crash: it reports `stopped`, closes exactly the
most recent open sleep event, and the number of open sleep events
decreases by exactly one (every event still open was open before). -/
theorem c4_amended_closes_most_recent (s : Store) (now_dt : Time) (nextId : Nat)
    (hids : (s.map Event.id).Nodup) (hne : openSleeps s ≠ []) :
    (api_sleep_toggle s now_dt nextId).status = "stopped" ∧
    (openSleeps (api_sleep_toggle s now_dt nextId).store).length
      = (openSleeps s).length - 1 ∧
    (∀ e ∈ openSleeps (api_sleep_toggle s now_dt nextId).store, e ∈ openSleeps s) := by
  obtain ⟨op, hop⟩ : ∃ op, latestWhere isOpenSleep s = some op := by
    cases hl : latestWhere isOpenSleep s with
    | none =>
      exfalso
      apply hne
      apply List.filter_eq_nil_iff.mpr
      intro a ha
      exact Bool.eq_false_iff.mp ((latestWhere_eq_none_iff _ _).mp hl a ha)
    | some b => exact ⟨b, rfl⟩
  have hopmem : op ∈ openSleeps s := latestWhere_mem_filter hop
  have hstore : (api_sleep_toggle s now_dt nextId).store = closeId op.id now_dt s := by
    simp [api_sleep_toggle, hop]
  have hstatus : (api_sleep_toggle s now_dt nextId).status = "stopped" := by
    simp [api_sleep_toggle, hop]
  have hidsopen : ((openSleeps s).map Event.id).Nodup := nodup_ids_filter isOpenSleep hids
  refine ⟨hstatus, ?_, ?_⟩
  · rw [hstore, openSleeps_closeId]
    exact filter_ne_id_length hidsopen hopmem
  · intro e hemem
    rw [hstore, openSleeps_closeId] at hemem
    exact List.mem_of_mem_filter hemem

theorem c4_amended_witness :
    (api_sleep_toggle [c4_s1, c4_s2, c4_s3] 1000 4).status = "stopped" ∧
    (openSleeps (api_sleep_toggle [c4_s1, c4_s2, c4_s3] 1000 4).store).length
      = (openSleeps [c4_s1, c4_s2, c4_s3]).length - 1 ∧
    (∀ e ∈ openSleeps (api_sleep_toggle [c4_s1, c4_s2, c4_s3] 1000 4).store,
      e ∈ openSleeps [c4_s1, c4_s2, c4_s3]) :=
  c4_amended_closes_most_recent [c4_s1, c4_s2, c4_s3] 1000 4 (by decide) (by decide)

/-! ### Claim C5 -/

/-- A store whose only sleep event is closed. -/
def c5_event : Event :=
  { id := 1, type := "sleep", subtype := some "day", value := none, value_secondary := none
    start_time := 100, end_time := some 200, note := none }

/-- C5 counterexample: the most recent sleep event is closed, so
`is_sleeping` is false, yet the sleep-start field still carries that
event's `start_time` instead of the null the claim requires. -/
theorem c5_counterexample :
    (api_status [c5_event]).is_sleeping = false ∧
    (api_status [c5_event]).last_sleep_start = some 100 := by
  decide

/-- C5 (amended): `is_sleeping` is true iff the most recent sleep event
has a null `end_time` (as claimed), but `last_sleep_start` equals that
event's `start_time` whenever any sleep event exists — also when it is
closed — and is null only when the store holds no sleep event at all. -/
theorem c5_amended_last_sleep_start (s : Store) :
    (∀ e ∈ s, e.type = "sleep" →
      (∀ e' ∈ s, e' ≠ e → e'.type = "sleep" → e'.start_time < e.start_time) →
      (api_status s).is_sleeping = e.end_time.isNone ∧
      (api_status s).last_sleep_start = some e.start_time)
    ∧ ((∀ e ∈ s, e.type ≠ "sleep") →
      (api_status s).is_sleeping = false ∧
      (api_status s).last_sleep_start = none) := by
  constructor
  · intro e he htype hmax
    have hlat : latestWhere (fun x => x.type == "sleep") s = some e := by
      apply latestWhere_strict_max he (by simp [htype])
      intro e' h1 h2 h3
      exact hmax e' h1 h2 (by simpa using h3)
    constructor
    · simp [api_status, hlat]
    · simp [api_status, hlat]
  · intro hnone
    have hlat : latestWhere (fun x => x.type == "sleep") s = none := by
      apply (latestWhere_eq_none_iff _ _).mpr
      intro a ha
      simpa using hnone a ha
    constructor
    · simp [api_status, hlat]
    · simp [api_status, hlat]

theorem c5_amended_witness :
    (api_status [c5_event]).is_sleeping = false ∧
    (api_status [c5_event]).last_sleep_start = some 100 ∧
    (api_status []).last_sleep_start = none := by
  refine ⟨?_, ?_, ?_⟩
  · have h := ((c5_amended_last_sleep_start [c5_event]).1 c5_event
      (by decide) rfl (by decide)).1
    simpa [c5_event] using h
  · exact ((c5_amended_last_sleep_start [c5_event]).1 c5_event
      (by decide) rfl (by decide)).2
  · exact ((c5_amended_last_sleep_start []).2 (by decide)).2

/-! ### Claim C6 -/

/-- C6 counterexample: a feed request whose `amount` is present but not
parseable as a number leaves the store unchanged, but fails by an
uncaught `ValueError` escaping the handler, not by a
`ValidationError`-style rejected request. -/
theorem c6_counterexample :
    isValidation (api_feed [] 1 0 none (some (.nonNum "abc")) none).2 = false ∧
    isUncaught (api_feed [] 1 0 none (some (.nonNum "abc")) none).2 = true ∧
    (api_feed [] 1 0 none (some (.nonNum "abc")) none).1 = [] := by
  decide

/-- C6 (amended): when `amount` or `duration` is present but not
parseable as a number, no feed event is appended (the store is
unchanged), but the failure is an uncaught `ValueError` raised by
`float(...)`, not a `ValidationError` rejection. -/
theorem c6_amended_uncaught_valueerror (s : Store) (nextId : Nat) (now_dt : Time)
    (subtype : Option String) (amount duration : Option Raw)
    (h : (∃ str, amount = some (.nonNum str)) ∨ (∃ str, duration = some (.nonNum str))) :
    (api_feed s nextId now_dt subtype amount duration).1 = s ∧
    isUncaught (api_feed s nextId now_dt subtype amount duration).2 = true ∧
    isValidation (api_feed s nextId now_dt subtype amount duration).2 = false := by
  rcases h with ⟨str, rfl⟩ | ⟨str, rfl⟩
  · simp [api_feed, parseOptNum, pyFloat, Except.map, isUncaught, isValidation]
  · cases amount with
    | none => simp [api_feed, parseOptNum, pyFloat, Except.map, isUncaught, isValidation]
    | some r =>
      cases r with
      | num q => simp [api_feed, parseOptNum, pyFloat, Except.map, isUncaught, isValidation]
      | nonNum s2 =>
        simp [api_feed, parseOptNum, pyFloat, Except.map, isUncaught, isValidation]

theorem c6_amended_witness :
    (api_feed [] 1 0 none (some (.nonNum "abc")) none).1 = [] ∧
    isUncaught (api_feed [] 1 0 none (some (.nonNum "abc")) none).2 = true ∧
    isValidation (api_feed [] 1 0 none (some (.nonNum "abc")) none).2 = false :=
  c6_amended_uncaught_valueerror [] 1 0 none (some (.nonNum "abc")) none
    (Or.inl ⟨"abc", rfl⟩)

/-! ### Claim C9 -/

/-- C9: `appendGrowth` fails with a `ValidationError` iff both `weight`
and `length` are absent; with at least one present it succeeds and
appends a growth event with `value = weight` and
`value_secondary = length`, which appears in the growth series as a
`(date, weight)` entry iff its `value` is non-null. -/
theorem c9_growth_validation (s : Store) (nextId : Nat) (now_dt : Time)
    (weight length : Option ℚ) :
    (isValidation (api_growth s nextId now_dt weight length).2 = true
      ↔ (weight = none ∧ length = none))
    ∧ (∀ q, weight = some q →
        ∃ ev, (api_growth s nextId now_dt weight length).2 = Except.ok ev ∧
          (api_growth s nextId now_dt weight length).1 = s ++ [ev] ∧
          ev.type = "growth" ∧ ev.value = some q ∧ ev.value_secondary = length ∧
          ev.start_time = now_dt ∧
          (dateKey now_dt, q) ∈ growth_series (api_growth s nextId now_dt weight length).1)
    ∧ (∀ q, weight = none → length = some q →
        ∃ ev, (api_growth s nextId now_dt weight length).2 = Except.ok ev ∧
          (api_growth s nextId now_dt weight length).1 = s ++ [ev] ∧
          ev.value = none ∧ ev.value_secondary = some q ∧
          growth_series (api_growth s nextId now_dt weight length).1
            = growth_series s) := by
  refine ⟨?_, ?_, ?_⟩
  · cases weight with
    | none =>
      cases length with
      | none => simp [api_growth, isValidation]
      | some q => simp [api_growth, isValidation]
    | some q =>
      simp [api_growth, isValidation]
  · intro q hq
    subst hq
    refine ⟨{ id := nextId, type := "growth", subtype := some "measurement"
              value := some q, value_secondary := length
              start_time := now_dt, end_time := none, note := none },
      by simp [api_growth], by simp [api_growth], rfl, rfl, rfl, rfl, ?_⟩
    have hstore : (api_growth s nextId now_dt (some q) length).1
        = s ++ [{ id := nextId, type := "growth", subtype := some "measurement"
                  value := some q, value_secondary := length
                  start_time := now_dt, end_time := none, note := none }] := by
      simp [api_growth]
    rw [hstore, growth_series]
    set ev : Event :=
      { id := nextId, type := "growth", subtype := some "measurement"
        value := some q, value_secondary := length
        start_time := now_dt, end_time := none, note := none } with hev
    have hfilter : (s ++ [ev]).filter (fun e => e.type == "growth")
        = s.filter (fun e => e.type == "growth") ++ [ev] := by
      rw [List.filter_append]
      simp [hev]
    rw [hfilter, sortByStartAsc_append_single]
    apply List.mem_filterMap.mpr
    refine ⟨ev, mem_insertByStart_self ev _, by simp [hev]⟩
  · intro q hw hq
    subst hw
    subst hq
    refine ⟨{ id := nextId, type := "growth", subtype := some "measurement"
              value := none, value_secondary := some q
              start_time := now_dt, end_time := none, note := none },
      by simp [api_growth], by simp [api_growth], rfl, rfl, ?_⟩
    have hstore : (api_growth s nextId now_dt none (some q)).1
        = s ++ [{ id := nextId, type := "growth", subtype := some "measurement"
                  value := none, value_secondary := some q
                  start_time := now_dt, end_time := none, note := none }] := by
      simp [api_growth]
    rw [hstore, growth_series, growth_series]
    set ev : Event :=
      { id := nextId, type := "growth", subtype := some "measurement"
        value := none, value_secondary := some q
        start_time := now_dt, end_time := none, note := none } with hev
    have hfilter : (s ++ [ev]).filter (fun e => e.type == "growth")
        = s.filter (fun e => e.type == "growth") ++ [ev] := by
      rw [List.filter_append]
      simp [hev]
    rw [hfilter, sortByStartAsc_append_single]
    apply filterMap_insertByStart_none
    simp [hev]

theorem c9_witness :
    isValidation (api_growth [] 1 0 none none).2 = true ∧
    (dateKey 0, (26 : ℚ) / 5) ∈ growth_series (api_growth [] 1 0 (some (26 / 5)) none).1 := by
  refine ⟨(c9_growth_validation [] 1 0 none none).1.mpr ⟨rfl, rfl⟩, ?_⟩
  obtain ⟨ev, -, -, -, -, -, -, hmem⟩ :=
    (c9_growth_validation [] 1 0 (some (26 / 5)) none).2.1 (26 / 5) rfl
  exact hmem

/-! ### Claim C10 -/

/-- C10: when `toggleSleep()` takes the `stopped` branch, the only change
is setting the open sleep event's `end_time`: the affected event keeps
its id, type, subtype, value, value_secondary, start_time and note;
every other event is unchanged; nothing is created or deleted. -/
theorem c10_stop_frame (s : Store) (now_dt : Time) (nextId : Nat) (op : Event)
    (hids : (s.map Event.id).Nodup)
    (hop : latestWhere isOpenSleep s = some op) :
    (api_sleep_toggle s now_dt nextId).status = "stopped" ∧
    (api_sleep_toggle s now_dt nextId).store.length = s.length ∧
    (api_sleep_toggle s now_dt nextId).event.id = op.id ∧
    (api_sleep_toggle s now_dt nextId).event.type = op.type ∧
    (api_sleep_toggle s now_dt nextId).event.subtype = op.subtype ∧
    (api_sleep_toggle s now_dt nextId).event.value = op.value ∧
    (api_sleep_toggle s now_dt nextId).event.value_secondary = op.value_secondary ∧
    (api_sleep_toggle s now_dt nextId).event.start_time = op.start_time ∧
    (api_sleep_toggle s now_dt nextId).event.note = op.note ∧
    (api_sleep_toggle s now_dt nextId).event.end_time = some now_dt ∧
    (∀ e ∈ s, e.id ≠ op.id → e ∈ (api_sleep_toggle s now_dt nextId).store) ∧
    (api_sleep_toggle s now_dt nextId).event ∈ (api_sleep_toggle s now_dt nextId).store ∧
    (∀ e' ∈ (api_sleep_toggle s now_dt nextId).store,
      e' ∈ s ∨ e' = (api_sleep_toggle s now_dt nextId).event) := by
  have hmem := latestWhere_mem hop
  have hstore : (api_sleep_toggle s now_dt nextId).store = closeId op.id now_dt s := by
    simp [api_sleep_toggle, hop]
  have hevent : (api_sleep_toggle s now_dt nextId).event
      = { op with end_time := some now_dt } := by
    simp [api_sleep_toggle, hop]
  refine ⟨by simp [api_sleep_toggle, hop], ?_, by rw [hevent], by rw [hevent],
    by rw [hevent], by rw [hevent], by rw [hevent], by rw [hevent], by rw [hevent],
    by rw [hevent], ?_, ?_, ?_⟩
  · rw [hstore, closeId, List.length_map]
  · intro e he hne
    rw [hstore]
    exact mem_closeId_of_id_ne op.id now_dt he hne
  · rw [hstore, hevent, closeId]
    have : (fun x => if x.id == op.id then { x with end_time := some now_dt } else x) op
        = { op with end_time := some now_dt } := by
      simp
    rw [← this]
    exact List.mem_map_of_mem _ hmem.1
  · intro e' he'
    rw [hstore, closeId] at he'
    rcases List.mem_map.mp he' with ⟨a, ha, hfa⟩
    by_cases hid : (a.id == op.id) = true
    · have haop : a = op :=
        List.inj_on_of_nodup_map hids ha hmem.1 (by simpa using hid)
      right
      rw [hevent, ← hfa, hid, haop]
      simp
    · left
      rw [← hfa]
      simp only [hid]
      simpa using ha

/-- A store with one open and one closed sleep row. -/
def c10_open : Event :=
  { id := 2, type := "sleep", subtype := some "day", value := none, value_secondary := none
    start_time := 500, end_time := none, note := none }

def c10_closed : Event :=
  { id := 1, type := "sleep", subtype := some "day", value := none, value_secondary := none
    start_time := 100, end_time := some 200, note := none }

theorem c10_witness :
    (api_sleep_toggle [c10_closed, c10_open] 1000 3).status = "stopped" ∧
    (api_sleep_toggle [c10_closed, c10_open] 1000 3).store.length = 2 ∧
    (api_sleep_toggle [c10_closed, c10_open] 1000 3).event.start_time = 500 ∧
    c10_closed ∈ (api_sleep_toggle [c10_closed, c10_open] 1000 3).store := by
  have hop : latestWhere isOpenSleep [c10_closed, c10_open] = some c10_open := by decide
  obtain ⟨h1, h2, -, -, -, -, -, h8, -, -, h11, -, -⟩ :=
    c10_stop_frame [c10_closed, c10_open] 1000 3 c10_open (by decide) hop
  exact ⟨h1, h2.trans rfl, h8.trans rfl, h11 c10_closed (by decide) (by decide)⟩

/-! ### Claim C3 -/

/-- C3: starting from a store with at most one open sleep event, any
sequence of `toggleSleep()` and append requests preserves the
single-open-interval rule; and toggling sleep an odd number of times
(at fresh, increasing instants) starting from a store with no open sleep
leaves exactly one open sleep interval with `is_sleeping` true. -/
theorem c3_single_open_invariant :
    (∀ st : Sys, ∀ ops : List (Time × Op),
      (openSleeps st.store).length ≤ 1 →
      (openSleeps (run st ops).store).length ≤ 1)
    ∧ (∀ st : Sys, ∀ ts : List Time,
      openSleeps st.store = [] →
      List.Sorted (· < ·) ts →
      startsBelow st.store ts →
      Odd ts.length →
      (openSleeps (runToggles st ts).store).length = 1 ∧
      (api_status (runToggles st ts).store).is_sleeping = true) := by
  constructor
  · intro st ops h
    exact run_atMostOne ops st h
  · intro st ts h0 hsorted hbelow hodd
    obtain ⟨e, hopens, htype, hend, hmax⟩ :=
      (toggles_parity ts st h0 hsorted hbelow).1 hodd
    refine ⟨by rw [hopens]; rfl, ?_⟩
    have hemem : e ∈ (runToggles st ts).store := by
      have : e ∈ openSleeps (runToggles st ts).store := by
        rw [hopens]
        exact List.mem_singleton_self e
      exact List.mem_of_mem_filter this
    have hlat : latestWhere (fun x => x.type == "sleep") (runToggles st ts).store
        = some e := by
      apply latestWhere_strict_max hemem (by simp [htype])
      intro e' h1 h2 _
      exact hmax e' h1 h2
    simp [api_status, hlat, hend]

theorem c3_witness :
    (openSleeps (run ⟨[], 1⟩ [((90000 : Int), Op.toggleSleep)]).store).length ≤ 1 ∧
    (openSleeps (runToggles ⟨[], 1⟩ [(90000 : Int)]).store).length = 1 ∧
    (api_status (runToggles ⟨[], 1⟩ [(90000 : Int)]).store).is_sleeping = true := by
  refine ⟨c3_single_open_invariant.1 ⟨[], 1⟩ [((90000 : Int), Op.toggleSleep)] (by decide),
    ?_, ?_⟩
  · exact (c3_single_open_invariant.2 ⟨[], 1⟩ [(90000 : Int)] (by decide)
      (by simp) (by intro e he; simp at he) (by decide)).1
  · exact (c3_single_open_invariant.2 ⟨[], 1⟩ [(90000 : Int)] (by decide)
      (by simp) (by intro e he; simp at he) (by decide)).2

end BabyTracker
